import Mathlib

/-!
Shallow embedding of the mastodon-to-hugo converter (Go) for checking its
natural-language specification.  Go strings are modelled as `List Char`
(Go string comparison is bytewise over UTF-8, which coincides with the
lexicographic order on code points); the relevant functions of
`main.go` and `mastodon-to-hugo.go` are translated definition by
definition below, followed by the theorems about the spec's claims.
-/

namespace MTH

/-- Go strings, modelled as lists of code points. -/
abbrev Str := List Char

/-- Model of Go `unicode.IsSpace`: the Unicode `White_Space` property
(U+0009..U+000D, U+0020, U+0085, U+00A0, U+1680, U+2000..U+200A,
U+2028, U+2029, U+202F, U+205F, U+3000).  This is exactly the set Go's
`unicode.IsSpace` accepts. -/
def isGoSpace (c : Char) : Bool :=
  (9 ≤ c.val && c.val ≤ 13) || c.val = 32 || c.val = 0x85 || c.val = 0xA0 ||
  c.val = 0x1680 || (0x2000 ≤ c.val && c.val ≤ 0x200A) ||
  c.val = 0x2028 || c.val = 0x2029 || c.val = 0x202F || c.val = 0x205F ||
  c.val = 0x3000

/-- Left part of Go `strings.TrimSpace`. -/
def goTrimLeft (s : Str) : Str := s.dropWhile isGoSpace

/-- Right part of Go `strings.TrimSpace`. -/
def goTrimRight (s : Str) : Str := (s.reverse.dropWhile isGoSpace).reverse

/-- Go `strings.TrimSpace`. -/
def goTrimSpace (s : Str) : Str := goTrimRight (goTrimLeft s)

/-- Go `strings.HasPrefix s p`. -/
def goStartsWith (s p : Str) : Bool := p.isPrefixOf s

/-- Go `strings.Contains s sub` (substring search). -/
def goContains (s sub : Str) : Bool := s.tails.any (fun t => sub.isPrefixOf t)

/-- Go `strings.TrimPrefix s p`: removes one leading copy of `p` if present. -/
def goTrimLeading (s p : Str) : Str := if goStartsWith s p then s.drop p.length else s

/-- Go `strings.Split s "\n"`: split on single newline characters.
Always returns a non-empty list of newline-free pieces. -/
def splitNl : Str → List Str
  | [] => [[]]
  | c :: r =>
    if c = '\n' then [] :: splitNl r
    else
      match splitNl r with
      | [] => [[c]]
      | h :: t => (c :: h) :: t

/-- Go `strings.Join parts sep`. -/
def joinWith (sep : Str) : List Str → Str
  | [] => []
  | [l] => l
  | l :: ls => l ++ sep ++ joinWith sep ls

/-- Split on `/` (used to model `filepath.Base` and the template's
base-filename computation: `strings.Split(url, "/")`, last element). -/
def splitSlash : Str → List Str
  | [] => [[]]
  | c :: r =>
    if c = '/' then [] :: splitSlash r
    else
      match splitSlash r with
      | [] => [[c]]
      | h :: t => (c :: h) :: t

/-- Last element of a split (total, defaulting to `[]`). -/
def lastPart (ls : List Str) : Str := ls.getLast!

/-- Model of Go `filepath.Base` for the slash-separated names that occur in
a Mastodon archive (no trailing slashes): the component after the last `/`,
`"."` for the empty path. -/
def goBase (s : Str) : Str :=
  if s = [] then ['.'] else lastPart (splitSlash s)

/-- Go `len(s)` (UTF-8 byte length). -/
def goLen (s : Str) : Nat := (s.map Char.utf8Size).sum

/-- Model of the Go byte-slice `s[:n]` for the strings it is applied to
in `writeToot` (header truncation at byte 97): take whole code points
while the accumulated UTF-8 length stays within `n`.  (A Go slice can cut
inside a code point; the header-truncation branch is never exercised at a
non-boundary in the claims checked here.) -/
def takeBytes (n : Nat) : Str → Str
  | [] => []
  | c :: r => if c.utf8Size ≤ n then c :: takeBytes (n - c.utf8Size) r else []

/-- First-match association-list lookup (models reading a Go map). -/
def alookup {β : Type} (m : List (Str × β)) (k : Str) : Option β :=
  match m with
  | [] => none
  | (k', v) :: r => if k' = k then some v else alookup r k

/-!
### Content transformer (`htmlToText`, `main.go` lines 57-154)

`htmlToText` parses its input with `golang.org/x/net/html` (an external
library) and walks the node tree.  The tree type and the walk are
modelled here; parsed trees for the concrete inputs of the claims are
supplied as explicit `Node` values (the HTML5 parsing of those inputs is
unambiguous).  The Go fallback branch for a parse error is dead code for
practical purposes — an HTML5 parser accepts every input — and is not
modelled.
-/

mutual
/-- A node of the parsed HTML tree (`html.Node`): a text node, an element
with its attribute list (key, value) in source order, or the document
node. -/
inductive Node where
  | text (s : Str)
  | elem (tag : Str) (attrs : List (Str × Str)) (children : NodeList)
  | doc (children : NodeList)
deriving DecidableEq
/-- Children of a `Node`. -/
inductive NodeList where
  | nil
  | cons (n : Node) (ns : NodeList)
deriving DecidableEq
end

/-- The `href` attribute value as computed by the Go attribute loop
(the last `href` wins, empty string when absent). -/
def lastHref (attrs : List (Str × Str)) : Str :=
  attrs.foldl (fun h a => if a.1 = "href".data then a.2 else h) []

/-- Whether some `class` attribute value contains the given marker
substring (the Go loop ORs over all `class` attributes). -/
def hasClassMarker (attrs : List (Str × Str)) (marker : Str) : Bool :=
  attrs.any (fun a => a.1 = "class".data && goContains a.2 marker)

mutual
/-- `extractText` of the mention branch: concatenation of all text nodes
in the subtree. -/
def textContent : Node → Str
  | .text s => s
  | .elem _ _ cs => textContentList cs
  | .doc cs => textContentList cs
/-- `textContent` over a child list. -/
def textContentList : NodeList → Str
  | .nil => []
  | .cons n ns => textContent n ++ textContentList ns
end

mutual
/-- The `traverse` closure of `htmlToText`: text accumulated from the
node tree.  `br`/`p` contribute a newline; `a` elements are handled by
link class (hashtag links elided with their text, mentions rewritten as
`[text](href)`, other links with a non-empty `href` emitted as
`<href>` with children skipped); everything else passes through to its
children. -/
def traverse : Node → Str
  | .text s => s
  | .doc cs => traverseList cs
  | .elem tag attrs cs =>
    let pre : Str := if tag = "br".data || tag = "p".data then ['\n'] else []
    if tag = "a".data then
      let href := lastHref attrs
      if hasClassMarker attrs "hashtag".data then pre
      else if hasClassMarker attrs "mention".data then
        let mentionText := textContentList cs
        if mentionText ≠ [] && href ≠ [] then
          pre ++ '['  :: mentionText ++ ']' :: '(' :: href ++ [')']
        else pre
      else if href ≠ [] then pre ++ '<' :: href ++ ['>']
      else pre ++ traverseList cs
    else pre ++ traverseList cs
/-- `traverse` over a child list. -/
def traverseList : NodeList → Str
  | .nil => []
  | .cons n ns => traverse n ++ traverseList ns
end

/-- The bare-URL wrapping step of the cleanup loop: a (trimmed) line
beginning with `http://` or `https://` is wrapped in angle brackets. -/
def wrapURL (line : Str) : Str :=
  if goStartsWith line "http://".data || goStartsWith line "https://".data then
    '<' :: line ++ ['>']
  else line

/-- The cleanup loop body of `htmlToText`: trim each line, drop empty
lines, wrap bare-URL lines. -/
def cleanLines : List Str → List Str
  | [] => []
  | l :: ls =>
    let t := goTrimSpace l
    if t = [] then cleanLines ls else wrapURL t :: cleanLines ls

/-- The whitespace cleanup of `htmlToText` (lines 138-153): trim the
whole text, split on newlines, clean each line, join with blank lines. -/
def cleanupText (s : Str) : Str :=
  joinWith "\n\n".data (cleanLines (splitNl (goTrimSpace s)))

/-- `htmlToText` on an already-parsed document tree. -/
def htmlToTextDoc (d : Node) : Str := cleanupText (traverse d)

/-- The tokenizer's newline preprocessing (`convertNewlines` in
`golang.org/x/net/html`): every `"\r\n"` pair and every lone `"\r"` in a
text token is read as a single `"\n"`. -/
def convertNewlines : Str → Str
  | [] => []
  | '\r' :: '\n' :: r => '\n' :: convertNewlines r
  | '\r' :: r => '\n' :: convertNewlines r
  | c :: r => c :: convertNewlines r

/-- Model of parsing markup-free text with `html.Parse`: a document whose
body holds the input — with the tokenizer's newline normalization
applied — as a single text node.  (The real parser drops whitespace-only
text occurring before the body; `htmlToTextDoc` trims its result, so
that difference is invisible in every use below.) -/
def plainDoc (s : Str) : Node :=
  .doc (.cons (.elem "html".data [] (.cons (.elem "head".data [] .nil)
    (.cons (.elem "body".data [] (.cons (.text (convertNewlines s)) .nil)) .nil))) .nil)

/-!
### Data model and record normalizer (`main.go`)

Field names follow the Go structs; `Type` is spelled `Typ` (a reserved
word in Lean).  A `Note` additionally carries `ContentDoc`, the parse
tree the external HTML parser produces for `Content` (supplied alongside
the record, since the parser itself is a library collaborator).
-/

/-- `main.go` `Attachment`. -/
structure Attachment where
  Typ : Str
  MediaType : Str
  URL : Str
  Name : Str
deriving DecidableEq

/-- `main.go` `Tag`. -/
structure Tag where
  Typ : Str
  Href : Str
  Name : Str
deriving DecidableEq

/-- `main.go` `Note`. -/
structure Note where
  ID : Str
  URL : Str
  Published : Str
  Content : Str
  ContentDoc : Node
  Summary : Option Str
  InReplyTo : Option Str
  Sensitive : Bool
  Attachment : List MTH.Attachment
  Tag : List MTH.Tag
  To : List Str
  Cc : List Str
deriving DecidableEq

/-- `main.go` `Activity`; `ObjectParses` models whether
`json.Unmarshal(activity.Object, &note)` succeeds. -/
structure Activity where
  Published : Str
  Actor : Str
  ObjectParses : Bool
  Object : Note
deriving DecidableEq

/-- `main.go` `Stats`. -/
structure Stats where
  TotalProcessed : Nat
  TootsOutput : Nat
  PrivateSkipped : Nat
  RepliesToOthers : Nat
  EmptyContent : Nat
deriving DecidableEq

/-- `main.go` `ActivityWithNote`. -/
structure ActivityWithNote where
  Published : Str
  Object : Note
  Actor : Str
deriving DecidableEq

/-- The ActivityStreams public audience URI of `collectToots`. -/
def publicURI : Str := "https://www.w3.org/ns/activitystreams#Public".data

/-- Whether a record is addressed to the public audience
(`slices.Contains(note.To, publicURI) || slices.Contains(note.Cc, publicURI)`). -/
def notePublic (n : Note) : Bool := n.To.contains publicURI || n.Cc.contains publicURI

/-- Whether a record is a reply whose target does not contain the actor
(the reply-to-others test of `collectToots`). -/
def replyToOther (a : Activity) : Bool :=
  match a.Object.InReplyTo with
  | some r => r ≠ [] && !goContains r a.Actor
  | none => false

/-- The `collectToots` loop (`main.go` lines 258-300), with the running
statistics and output slice as accumulators. -/
def collectGo : Stats → List ActivityWithNote → List Activity → Stats × List ActivityWithNote
  | stats, out, [] => (stats, out)
  | stats, out, a :: rest =>
    if !a.ObjectParses then collectGo stats out rest
    else
      let stats := { stats with TotalProcessed := stats.TotalProcessed + 1 }
      if a.Object.Content = [] then
        collectGo { stats with EmptyContent := stats.EmptyContent + 1 } out rest
      else if !notePublic a.Object then
        collectGo { stats with PrivateSkipped := stats.PrivateSkipped + 1 } out rest
      else if replyToOther a then
        collectGo { stats with RepliesToOthers := stats.RepliesToOthers + 1 } out rest
      else
        collectGo { stats with TootsOutput := stats.TootsOutput + 1 }
          (out ++ [{ Published := a.Published, Object := a.Object, Actor := a.Actor }]) rest

/-- `collectToots`: filter the archive's records, accumulating statistics. -/
def collectToots (archive : List Activity) : Stats × List ActivityWithNote :=
  collectGo ⟨0, 0, 0, 0, 0⟩ [] archive

/-!
### Thread assembler (`buildThreads`, `main.go` lines 302-351)

`findReplies` in Go recurses without a bound; the model takes explicit
fuel (`0` fuel returns no replies).  `sort.Slice` guarantees a
permutation sorted with respect to its comparator; it is modelled by
insertion sort with the corresponding non-strict order.
-/

/-- The reply order used by `findReplies`' `sort.Slice` call. -/
def pubLE (a b : ActivityWithNote) : Prop := a.Published ≤ b.Published

instance : DecidableRel pubLE := fun a b =>
  inferInstanceAs (Decidable (a.Published ≤ b.Published))

instance : IsTotal ActivityWithNote pubLE := ⟨fun a b => le_total a.Published b.Published⟩

instance : IsTrans ActivityWithNote pubLE := ⟨fun _ _ _ h h' => le_trans h h'⟩

/-- Model of `sort.Slice(replies, ...Published[i] < Published[j])`. -/
def sortByPublished (l : List ActivityWithNote) : List ActivityWithNote :=
  List.insertionSort pubLE l

/-- The recursive `findReplies` closure: all records replying (directly
or transitively) to the given id, sorted by publish timestamp. -/
def findReplies (allToots : List ActivityWithNote) : Nat → Str → List ActivityWithNote
  | 0, _ => []
  | fuel + 1, parentID =>
    sortByPublished (allToots.flatMap fun c =>
      if c.Object.InReplyTo = some parentID then
        c :: findReplies allToots fuel c.Object.ID
      else [])

/-- `main.go` `TootThread`. -/
structure TootThread where
  Root : ActivityWithNote
  Replies : List ActivityWithNote
deriving DecidableEq

/-- Digit value of a character. -/
def digitVal (c : Char) : Nat := c.toNat - 48

/-- Time-zone suffix accepted by RFC 3339 (`Z` or `±hh:mm`). -/
def zoneOK : Str → Bool
  | ['Z'] => true
  | [c, h1, h2, ':', m1, m2] =>
    (c = '+' || c = '-') && h1.isDigit && h2.isDigit && m1.isDigit && m2.isDigit &&
    (10 * digitVal h1 + digitVal h2 ≤ 23) && (10 * digitVal m1 + digitVal m2 ≤ 59)
  | _ => false

/-- Optional fractional seconds before the zone. -/
def fracZoneOK (s : Str) : Bool :=
  match s with
  | '.' :: rest => rest.takeWhile Char.isDigit ≠ [] && zoneOK (rest.dropWhile Char.isDigit)
  | rest => zoneOK rest

/-- Model of `time.Parse(time.RFC3339, s)` succeeding: the RFC 3339
layout with in-range fields.  (The per-month day count is not refined;
the claims only evaluate this at concrete well-formed dates.) -/
def validRFC3339 (s : Str) : Bool :=
  match s with
  | y1 :: y2 :: y3 :: y4 :: '-' :: m1 :: m2 :: '-' :: d1 :: d2 :: 'T' ::
      h1 :: h2 :: ':' :: n1 :: n2 :: ':' :: s1 :: s2 :: rest =>
    y1.isDigit && y2.isDigit && y3.isDigit && y4.isDigit &&
    m1.isDigit && m2.isDigit && d1.isDigit && d2.isDigit &&
    h1.isDigit && h2.isDigit && n1.isDigit && n2.isDigit &&
    s1.isDigit && s2.isDigit &&
    (1 ≤ 10 * digitVal m1 + digitVal m2) && (10 * digitVal m1 + digitVal m2 ≤ 12) &&
    (1 ≤ 10 * digitVal d1 + digitVal d2) && (10 * digitVal d1 + digitVal d2 ≤ 31) &&
    (10 * digitVal h1 + digitVal h2 ≤ 23) && (10 * digitVal n1 + digitVal n2 ≤ 59) &&
    (10 * digitVal s1 + digitVal s2 ≤ 59) &&
    fracZoneOK rest
  | _ => false

/-- Append a thread under a date key (`threadsByDate[dateKey] = append(...)`). -/
def assocAppendThread (m : List (Str × List TootThread)) (k : Str) (v : TootThread) :
    List (Str × List TootThread) :=
  match m with
  | [] => [(k, [v])]
  | (k', vs) :: r =>
    if k' = k then (k', vs ++ [v]) :: r else (k', vs) :: assocAppendThread r k v

/-- Whether `buildThreads` skips a record as a self-reply (it will appear
inside another record's thread instead of heading its own). -/
def isSelfReplySkip (toot : ActivityWithNote) : Bool :=
  match toot.Object.InReplyTo with
  | some r => r ≠ [] && goContains r toot.Actor
  | none => false

/-- The `buildThreads` loop over root candidates. -/
def buildThreadsGo (allToots : List ActivityWithNote) (fuel : Nat) :
    List ActivityWithNote → List (Str × List TootThread) → List (Str × List TootThread)
  | [], m => m
  | toot :: rest, m =>
    if isSelfReplySkip toot then buildThreadsGo allToots fuel rest m
    else
      let thread : TootThread := ⟨toot, findReplies allToots fuel toot.Object.ID⟩
      if validRFC3339 toot.Published then
        buildThreadsGo allToots fuel rest (assocAppendThread m (toot.Published.take 10) thread)
      else
        buildThreadsGo allToots fuel rest m

/-- `buildThreads`: threads grouped by the root's calendar date
(`t.Format("2006-01-02")` is the first ten characters of an RFC 3339
timestamp); a root whose date fails to parse is reported and skipped. -/
def buildThreads (fuel : Nat) (allToots : List ActivityWithNote) :
    List (Str × List TootThread) :=
  buildThreadsGo allToots fuel allToots []

/-!
### Document renderer (`writeToot` / `writeMarkdownFiles`, `main.go`)

The renderer writes to a file; the model returns the written string.
The source link of `main.go` line 432 contains the bytes
U+00F0 U+0178 U+02DC (a mis-encoded elephant emoji), reproduced here
verbatim.
-/

/-- One attachment reference of `writeToot` (lines 380-403). -/
def attachmentLine (extractedMedia : List (Str × Str)) (att : Attachment) : Str :=
  match alookup extractedMedia (goTrimLeading att.URL "/".data) with
  | some filename =>
    if goStartsWith att.MediaType "image/".data then
      let altText := if att.Name = [] then "attachment".data else att.Name
      "![".data ++ altText ++ "](/mastodon/media/".data ++ filename ++ ")\n".data
    else
      let linkText := if att.Name = [] then filename else att.Name
      "[".data ++ linkText ++ "](/mastodon/media/".data ++ filename ++ ")\n".data
  | none =>
    "[Attachment: ".data ++ att.MediaType ++ "](".data ++ att.URL ++ ")\n".data

/-- The attachment section of `writeToot` (a leading blank line when any
attachment exists, then one reference per attachment). -/
def attachSection (extractedMedia : List (Str × Str)) (atts : List Attachment) : Str :=
  if atts = [] then [] else '\n' :: (atts.map (attachmentLine extractedMedia)).flatten

/-- The content-warning section of `writeToot`. -/
def cwSection (summary : Option Str) : Str :=
  match summary with
  | some s => if s ≠ [] then "\n*Content Warning: ".data ++ s ++ "*\n".data else []
  | none => []

/-- The hashtag section of `writeToot`. -/
def tagSection (tags : List Tag) : Str :=
  let hashtags := (tags.filter fun t => t.Typ = "Hashtag".data).map (·.Name)
  if hashtags = [] then []
  else
    "\n<small><b>Tags:</b> ".data ++
      joinWith ", ".data (hashtags.map fun t => "`".data ++ t ++ "`".data) ++
      "</small>\n".data

/-- `writeToot` (lines 353-433): header (roots only), transformed
content, attachments, content warning, tags, source backlink. -/
def writeToot (extractedMedia : List (Str × Str)) (toot : ActivityWithNote)
    (headerLevel : Str) : Str :=
  let content := htmlToTextDoc toot.Object.ContentDoc
  let headerPart : Str :=
    if headerLevel = "##".data then
      let singleLineContent := content.map fun c => if c = '\n' then ' ' else c
      let headerText :=
        if goLen singleLineContent > 100 then takeBytes 97 singleLineContent ++ "...".data
        else singleLineContent
      headerLevel ++ " ".data ++ headerText ++ "\n\n".data
    else []
  headerPart ++ content ++ "\n".data ++
    attachSection extractedMedia toot.Object.Attachment ++
    cwSection toot.Object.Summary ++
    tagSection toot.Object.Tag ++
    "\n##### [Mastodon Source ðŸ˜](".data ++ toot.Object.URL ++ ")\n".data

/-- The frontmatter block of a date file (lines 469-478). -/
def frontmatter (date generatedAt : Str) : Str :=
  "---\ntitle: \"Mastodon - ".data ++ date ++
  "\"\ndescription: \"\"\nimage: \"/images/mastodon.png\"\ndate: ".data ++ date ++
  "T00:00:00Z\nlastmod: ".data ++ date ++
  "T00:00:00Z\ntags: [\"Social Media\"]\ncategories: [\"mastodon\"]\n# generated: ".data ++
  generatedAt ++ "\n---\n\n".data

/-- Descending order on root publish timestamps
(`threads[i].Root.Published > threads[j].Root.Published`). -/
def rootPubGE (a b : TootThread) : Prop := b.Root.Published ≤ a.Root.Published

instance : DecidableRel rootPubGE := fun a b =>
  inferInstanceAs (Decidable (b.Root.Published ≤ a.Root.Published))

/-- Model of the per-date `sort.Slice` (descending by root timestamp). -/
def sortThreadsDesc (l : List TootThread) : List TootThread :=
  List.insertionSort rootPubGE l

/-- Descending string order (`sort.Sort(sort.Reverse(sort.StringSlice(dates)))`). -/
def strGE (a b : Str) : Prop := b ≤ a

instance : DecidableRel strGE := fun a b => inferInstanceAs (Decidable (b ≤ a))

/-- Model of the date sort. -/
def sortDatesDesc (l : List Str) : List Str := List.insertionSort strGE l

/-- The markdown written for one thread inside a date file (lines
483-494): the root at `##`, each reply prefixed by a blank line at
`###`, then a rule. -/
def threadText (extractedMedia : List (Str × Str)) (thread : TootThread) : Str :=
  writeToot extractedMedia thread.Root "##".data ++
    (thread.Replies.map fun r => '\n' :: writeToot extractedMedia r "###".data).flatten ++
    "\n---\n\n".data

/-- The whole document of one date file. -/
def dateDocument (extractedMedia : List (Str × Str)) (generatedAt date : Str)
    (threads : List TootThread) : Str :=
  frontmatter date generatedAt ++ "# Toots from ".data ++ date ++ "\n\n".data ++
    ((sortThreadsDesc threads).map (threadText extractedMedia)).flatten

/-- `writeMarkdownFiles` (lines 436-502): the (path, content) pairs
written, dates descending, each file under its year directory
(`t.Format("2006")` is the date's first four characters). -/
def writeMarkdownFiles (threadsByDate : List (Str × List TootThread))
    (outputDir : Str) (extractedMedia : List (Str × Str)) (generatedAt : Str) :
    List (Str × Str) :=
  let dates := sortDatesDesc (threadsByDate.map (·.1))
  dates.filterMap fun date =>
    (alookup threadsByDate date).map fun threads =>
      (outputDir ++ "/".data ++ date.take 4 ++ "/".data ++ date ++ ".md".data,
       dateDocument extractedMedia generatedAt date threads)

/-!
### Media extraction (`extractMedia`, `main.go` lines 204-246)

Zip entries are modelled with their name, content, and the success of
the three per-entry I/O operations (open, create, copy).  The output
directory is a map from destination path to written content; `os.Create`
followed by a failing `io.Copy` leaves a truncated destination file,
modelled as empty content.
-/

/-- A zip entry together with the outcome of its per-entry I/O. -/
structure ZipEntry where
  Name : Str
  Content : Str
  openOk : Bool
  createOk : Bool
  copyOk : Bool
deriving DecidableEq

/-- The extraction state: the `extractedMedia` map and the media
directory contents. -/
structure ExtractState where
  extractedMedia : List (Str × Str)
  disk : List (Str × Str)
deriving DecidableEq

/-- Overwriting file write (newest entry shadows older ones). -/
def diskWrite (d : List (Str × Str)) (k v : Str) : List (Str × Str) := (k, v) :: d

/-- One iteration of the `extractMedia` loop. -/
def extractStep (mediaDir : Str) (st : ExtractState) (f : ZipEntry) : ExtractState :=
  if !goStartsWith f.Name "media_attachments/".data then st
  else
    let filename := goBase f.Name
    let destPath := mediaDir ++ "/".data ++ filename
    if (alookup st.extractedMedia f.Name).isSome then st
    else if !f.openOk then st
    else if !f.createOk then st
    else if !f.copyOk then { st with disk := diskWrite st.disk destPath [] }
    else
      { extractedMedia := st.extractedMedia ++ [(f.Name, filename)],
        disk := diskWrite st.disk destPath f.Content }

/-- `extractMedia`: processes every entry; the Go function always
returns a `nil` error. -/
def extractMedia (mediaDir : Str) (entries : List ZipEntry) :
    ExtractState × Option Str :=
  (entries.foldl (extractStep mediaDir) ⟨[], []⟩, none)

/-!
### The second implementation (`mastodon-to-hugo.go`)

Only the parts the claims touch are modelled: the self-publish filter,
the reply-chain walk of `renderTootsToDisk` (lines 367-386), and the
attachment branch of `TEMPLATE_TOOT`.  The chain walk is modelled with
fuel: a `none` result means the Go `for` loop has not terminated within
that many iterations.  Go compares `parentActivityItem ==
threadRootActivityItem` by pointer; entries built from distinct archive
records are distinct structures, so structural equality is used.
-/

/-- `mastodon-to-hugo.go` `ActivityObject` (the fields the claims use). -/
structure ActivityObject where
  ID : Str
  InReplyTo : Str
  Published : Str
  URL : Str
  Content : Str
deriving DecidableEq

/-- `mastodon-to-hugo.go` `ActivityEntry`. -/
structure ActivityEntry where
  ID : Str
  Typ : Str
  Published : Str
  CC : List Str
  Object : ActivityObject
deriving DecidableEq

/-- `MY_FOLLOWERS_URL` (computed from `HOST` and `USER`). -/
def MY_FOLLOWERS_URL : Str := "https://hachyderm.io/users/mweagle/followers".data

/-- `selfPublishFilter` (lines 286-302). -/
def selfPublishFilter (entry : ActivityEntry) : Bool :=
  let selfReplyToURL : Str := "https://hachyderm.io/users/mweagle".data
  if entry.Typ ≠ "Create".data then false
  else if entry.Object.InReplyTo ≠ [] &&
      !goStartsWith entry.Object.InReplyTo selfReplyToURL then false
  else if entry.CC.length > 1 || !entry.CC.contains MY_FOLLOWERS_URL then false
  else true

/-- The reply-chain walk of `renderTootsToDisk` (lines 370-386): follow
`InReplyTo` through `ThreadIDChain` until it is empty or unresolved;
error out when the looked-up parent is the current record itself.
`none` means the walk is still running after the given number of
iterations. -/
def resolveThreadRoot (chain : List (Str × ActivityEntry)) :
    Nat → ActivityEntry → Option (Except Str ActivityEntry)
  | 0, _ => none
  | fuel + 1, cur =>
    let replyToID := cur.Object.InReplyTo
    if replyToID = [] then some (.ok cur)
    else
      match alookup chain replyToID with
      | none => some (.ok cur)
      | some parent =>
        if parent = cur then
          some (.error ("Loop detected for item: ".data ++ cur.Object.ID))
        else resolveThreadRoot chain fuel parent

/-- An attachment as seen by `TEMPLATE_TOOT` (with the derived
`BaseFilename`). -/
structure TemplAttachment where
  MediaType : Str
  Name : Str
  BaseFilename : Str
deriving DecidableEq

/-- The `BaseFilename` derivation of `ActivityObject.UnmarshalJSON`
(lines 215-218): the last `/`-separated component of the URL. -/
def baseFilenameOf (url : Str) : Str := lastPart (splitSlash url)

/-- The attachment branch of `TEMPLATE_TOOT` (`mastodon-to-hugo.go`
line 56): `video/mp4` renders as an embedded player, everything else as
a Markdown image embed. -/
def renderAttachmentTemplate (a : TemplAttachment) : Str :=
  if a.MediaType = "video/mp4".data then
    "<video controls autoplay muted loop width=\"512\"><source src=\"".data ++
      a.BaseFilename ++ "\" type=\"".data ++ a.MediaType ++ "\" /></video>".data
  else
    "![".data ++ a.Name ++ "](".data ++ a.BaseFilename ++ ")".data

/-!
## Theorems about the claims
-/

/-- C9: in the cleanup of `htmlToText`, angle-bracket wrapping applies to
every trimmed line beginning with `http://` or `https://` (regardless of
what follows on the line), and a line already beginning with `<` is never
wrapped. -/
theorem C9_url_wrapping :
    (∀ line : Str,
      goStartsWith line "http://".data = true ∨ goStartsWith line "https://".data = true →
      wrapURL line = '<' :: line ++ ['>']) ∧
    (∀ line : Str, goStartsWith line "<".data = true → wrapURL line = line) := by
  constructor
  · intro line h
    unfold wrapURL
    rcases h with h | h <;> simp [h]
  · intro line h
    cases line with
    | nil => exact absurd h (by decide)
    | cons c r =>
      have e : goStartsWith (c :: r) "<".data = ('<' == c && List.isPrefixOf [] r) := rfl
      rw [e] at h
      have hc : c = '<' := by
        have := ((Bool.and_eq_true _ _).mp h).1
        have h2 : '<' = c := by simpa using this
        exact h2.symm
      subst hc
      have h1 : goStartsWith ('<' :: r) "http://".data = false := rfl
      have h2 : goStartsWith ('<' :: r) "https://".data = false := rfl
      unfold wrapURL
      rw [h1, h2]
      simp

/-- Witness for C9 at concrete lines: a line with text after the URL is
wrapped whole, and an already-bracketed line is untouched. -/
theorem C9_url_wrapping_witness :
    wrapURL "https://x and more".data = '<' :: "https://x and more".data ++ ['>'] ∧
    wrapURL "<https://x>".data = "<https://x>".data :=
  ⟨C9_url_wrapping.1 "https://x and more".data (Or.inr (by decide)),
   C9_url_wrapping.2 "<https://x>".data (by decide)⟩

/-- C6: an attachment whose archive path is missing from the extracted
map still renders — as a link to the original source URL — and the
attachment section around it is produced. -/
theorem C6_missing_attachment_fallback :
    ∀ (extractedMedia : List (Str × Str)) (att : Attachment),
      alookup extractedMedia (goTrimLeading att.URL "/".data) = none →
      attachmentLine extractedMedia att =
        "[Attachment: ".data ++ att.MediaType ++ "](".data ++ att.URL ++ ")\n".data ∧
      attachSection extractedMedia [att] =
        '\n' :: ("[Attachment: ".data ++ att.MediaType ++ "](".data ++ att.URL ++ ")\n".data) := by
  intro extractedMedia att h
  have hline : attachmentLine extractedMedia att =
      "[Attachment: ".data ++ att.MediaType ++ "](".data ++ att.URL ++ ")\n".data := by
    unfold attachmentLine
    rw [h]
  refine ⟨hline, ?_⟩
  unfold attachSection
  simp [hline]

/-- Witness for C6: a concrete attachment with an empty extracted map. -/
theorem C6_missing_attachment_fallback_witness :
    attachmentLine [] ⟨"Document".data, "audio/mpeg".data,
        "/media_attachments/files/1/orig.mp3".data, "pod".data⟩ =
      "[Attachment: audio/mpeg](/media_attachments/files/1/orig.mp3)\n".data ∧
    attachSection [] [⟨"Document".data, "audio/mpeg".data,
        "/media_attachments/files/1/orig.mp3".data, "pod".data⟩] =
      '\n' :: "[Attachment: audio/mpeg](/media_attachments/files/1/orig.mp3)\n".data := by
  have h := C6_missing_attachment_fallback []
    ⟨"Document".data, "audio/mpeg".data,
      "/media_attachments/files/1/orig.mp3".data, "pod".data⟩ (by decide)
  exact ⟨h.1, h.2⟩

/-- Extracted map and video attachment for the C5 counterexample. -/
def c5Media : List (Str × Str) :=
  [("media_attachments/files/v.mp4".data, "v.mp4".data)]

/-- A relocated video attachment. -/
def c5Video : Attachment :=
  ⟨"Document".data, "video/mp4".data, "/media_attachments/files/v.mp4".data, "clip".data⟩

/-- C5 counterexample: in `writeToot`, a relocated `video/mp4`
attachment renders as a plain Markdown link, not as an embedded player. -/
theorem C5_video_counterexample :
    attachmentLine c5Media c5Video = "[clip](/mastodon/media/v.mp4)\n".data ∧
    goContains (attachmentLine c5Media c5Video) "<video".data = false := by
  decide

/-- C5 as amended: `writeToot` renders image attachments as image embeds
and every other relocated attachment as a Markdown link (both with the
relocated filename); the toot template renders `video/mp4` as an
embedded player and every other attachment as an image embed (both with
the derived base filename). -/
theorem C5_attachment_rendering :
    (∀ (m : List (Str × Str)) (att : Attachment) (fn : Str),
      alookup m (goTrimLeading att.URL "/".data) = some fn →
      (goStartsWith att.MediaType "image/".data = true →
        attachmentLine m att = "![".data ++
          (if att.Name = [] then "attachment".data else att.Name) ++
          "](/mastodon/media/".data ++ fn ++ ")\n".data) ∧
      (goStartsWith att.MediaType "image/".data = false →
        attachmentLine m att = "[".data ++
          (if att.Name = [] then fn else att.Name) ++
          "](/mastodon/media/".data ++ fn ++ ")\n".data)) ∧
    (∀ a : TemplAttachment,
      (a.MediaType = "video/mp4".data →
        renderAttachmentTemplate a =
          "<video controls autoplay muted loop width=\"512\"><source src=\"".data ++
            a.BaseFilename ++ "\" type=\"".data ++ a.MediaType ++ "\" /></video>".data) ∧
      (a.MediaType ≠ "video/mp4".data →
        renderAttachmentTemplate a =
          "![".data ++ a.Name ++ "](".data ++ a.BaseFilename ++ ")".data)) := by
  constructor
  · intro m att fn h
    constructor <;> intro himg <;> · unfold attachmentLine; rw [h]; simp [himg]
  · intro a
    constructor <;> intro hv <;> · unfold renderAttachmentTemplate; simp [hv]

/-- Witness for C5 as amended: a concrete relocated image and a concrete
template video. -/
theorem C5_attachment_rendering_witness :
    attachmentLine [("media_attachments/files/p.png".data, "p.png".data)]
        ⟨"Document".data, "image/png".data, "/media_attachments/files/p.png".data, "pic".data⟩ =
      "![pic](/mastodon/media/p.png)\n".data ∧
    renderAttachmentTemplate ⟨"video/mp4".data, "v".data, "v.mp4".data⟩ =
      "<video controls autoplay muted loop width=\"512\"><source src=\"v.mp4\" type=\"video/mp4\" /></video>".data := by
  constructor
  · have h := (C5_attachment_rendering.1
      [("media_attachments/files/p.png".data, "p.png".data)]
      ⟨"Document".data, "image/png".data, "/media_attachments/files/p.png".data, "pic".data⟩
      "p.png".data (by decide)).1 (by decide)
    simpa using h
  · have h := (C5_attachment_rendering.2 ⟨"video/mp4".data, "v".data, "v.mp4".data⟩).1 rfl
    simpa using h

/-!
### C1: reply-chain loops

Two filtered records forming a two-element reply cycle (each the other's
reply target).  Both pass `selfPublishFilter`, so they reach
`renderTootsToDisk`; its chain walk alternates between them forever,
because the loop check only compares the looked-up parent with the
current record.  A record that is directly its own reply target is the
only shape the check catches.
-/

/-- First record of the two-element reply cycle. -/
def c1A : ActivityEntry :=
  { ID := "https://hachyderm.io/users/mweagle/statuses/1/activity".data
    Typ := "Create".data
    Published := "2024-02-02T17:40:31Z".data
    CC := [MY_FOLLOWERS_URL]
    Object :=
      { ID := "https://hachyderm.io/users/mweagle/statuses/1".data
        InReplyTo := "https://hachyderm.io/users/mweagle/statuses/2".data
        Published := "2024-02-02T17:40:31Z".data
        URL := "https://hachyderm.io/@mweagle/1".data
        Content := "<p>a</p>".data } }

/-- Second record of the two-element reply cycle. -/
def c1B : ActivityEntry :=
  { ID := "https://hachyderm.io/users/mweagle/statuses/2/activity".data
    Typ := "Create".data
    Published := "2024-02-02T17:41:31Z".data
    CC := [MY_FOLLOWERS_URL]
    Object :=
      { ID := "https://hachyderm.io/users/mweagle/statuses/2".data
        InReplyTo := "https://hachyderm.io/users/mweagle/statuses/1".data
        Published := "2024-02-02T17:41:31Z".data
        URL := "https://hachyderm.io/@mweagle/2".data
        Content := "<p>b</p>".data } }

/-- The `ThreadIDChain` of the cyclic archive. -/
def c1Chain : List (Str × ActivityEntry) :=
  [(c1A.Object.ID, c1A), (c1B.Object.ID, c1B)]

/-- A record that is directly its own reply target. -/
def c1Self : ActivityEntry :=
  { ID := "https://hachyderm.io/users/mweagle/statuses/3/activity".data
    Typ := "Create".data
    Published := "2024-02-02T17:42:31Z".data
    CC := [MY_FOLLOWERS_URL]
    Object :=
      { ID := "https://hachyderm.io/users/mweagle/statuses/3".data
        InReplyTo := "https://hachyderm.io/users/mweagle/statuses/3".data
        Published := "2024-02-02T17:42:31Z".data
        URL := "https://hachyderm.io/@mweagle/3".data
        Content := "<p>c</p>".data } }

/-- `ThreadIDChain` of the one-record self-loop. -/
def c1SelfChain : List (Str × ActivityEntry) := [(c1Self.Object.ID, c1Self)]

/-- One walk step on the cycle: from `c1A` the walk moves to `c1B`. -/
theorem c1_step_ab (n : Nat) :
    resolveThreadRoot c1Chain (n + 1) c1A = resolveThreadRoot c1Chain n c1B := rfl

/-- One walk step on the cycle: from `c1B` the walk moves to `c1A`. -/
theorem c1_step_ba (n : Nat) :
    resolveThreadRoot c1Chain (n + 1) c1B = resolveThreadRoot c1Chain n c1A := rfl

/-- The chain walk never terminates on the two-element cycle. -/
theorem c1_loop_aux (fuel : Nat) :
    resolveThreadRoot c1Chain fuel c1A = none ∧
    resolveThreadRoot c1Chain fuel c1B = none := by
  induction fuel with
  | zero => exact ⟨rfl, rfl⟩
  | succ n ih => exact ⟨(c1_step_ab n).trans ih.2, (c1_step_ba n).trans ih.1⟩

/-- C1: a two-record reply cycle passes the publish filter, and the
reply-chain walk of `renderTootsToDisk` runs forever on it (it returns no
result for any number of iterations), while only a record that is
directly its own reply target is caught by the loop-detected error. -/
theorem C1_cycle_nontermination :
    selfPublishFilter c1A = true ∧ selfPublishFilter c1B = true ∧
    (∀ fuel : Nat, resolveThreadRoot c1Chain fuel c1A = none) ∧
    resolveThreadRoot c1SelfChain 1 c1Self =
      some (.error ("Loop detected for item: ".data ++ c1Self.Object.ID)) :=
  ⟨by decide, by decide, fun fuel => (c1_loop_aux fuel).1, rfl⟩

/-!
### C2: order of the filtering rules

`collectToots` tests emptiness first, then visibility, then reply
scope — not visibility first as the claim states.  A record that is both
empty and non-public lands in the empty-content counter.
-/

/-- A parsed record that is empty *and* non-public. -/
def c2Act : Activity :=
  { Published := "2024-02-02T00:00:00Z".data
    Actor := "https://hachyderm.io/users/mweagle".data
    ObjectParses := true
    Object :=
      { ID := "https://hachyderm.io/users/mweagle/statuses/9".data
        URL := "https://hachyderm.io/@mweagle/9".data
        Published := "2024-02-02T00:00:00Z".data
        Content := []
        ContentDoc := plainDoc []
        Summary := none
        InReplyTo := none
        Sensitive := false
        Attachment := []
        Tag := []
        To := []
        Cc := [] } }

/-- C2 counterexample: a record that fails both the visibility rule and
the emptiness rule is counted under the empty-content counter, not the
visibility counter — so the rules are not applied in the claimed order
(visibility first). -/
theorem C2_order_counterexample :
    (collectToots [c2Act]).1.PrivateSkipped = 0 ∧
    (collectToots [c2Act]).1.EmptyContent = 1 ∧
    notePublic c2Act.Object = false := by
  decide

/-- Parse-success predicate. -/
def parsesP (a : Activity) : Bool := a.ObjectParses

/-- Excluded by rule 1 (emptiness). -/
def emptyExclP (a : Activity) : Bool := a.ObjectParses && decide (a.Object.Content = [])

/-- Excluded by rule 2 (visibility), having passed rule 1. -/
def privateExclP (a : Activity) : Bool :=
  a.ObjectParses && !decide (a.Object.Content = []) && !notePublic a.Object

/-- Excluded by rule 3 (reply scope), having passed rules 1 and 2. -/
def replyExclP (a : Activity) : Bool :=
  a.ObjectParses && !decide (a.Object.Content = []) && notePublic a.Object && replyToOther a

/-- Kept by all three rules. -/
def keptP (a : Activity) : Bool :=
  a.ObjectParses && !decide (a.Object.Content = []) && notePublic a.Object && !replyToOther a

/-- The record constructed for a kept activity. -/
def mkAWN (a : Activity) : ActivityWithNote := ⟨a.Published, a.Object, a.Actor⟩

/-- Characterization of the `collectToots` loop from any starting state. -/
theorem collectGo_spec (acts : List Activity) : ∀ (stats : Stats) (out : List ActivityWithNote),
    collectGo stats out acts =
      ({ TotalProcessed := stats.TotalProcessed + acts.countP parsesP,
         TootsOutput := stats.TootsOutput + acts.countP keptP,
         PrivateSkipped := stats.PrivateSkipped + acts.countP privateExclP,
         RepliesToOthers := stats.RepliesToOthers + acts.countP replyExclP,
         EmptyContent := stats.EmptyContent + acts.countP emptyExclP },
       out ++ (acts.filter keptP).map mkAWN) := by
  induction acts with
  | nil =>
    intro stats out
    simp [collectGo]
  | cons a rest ih =>
    intro stats out
    rcases hp : a.ObjectParses with _ | _
    · simp only [collectGo, hp, Bool.not_false, if_true, ih]
      simp [List.countP_cons, List.filter_cons, parsesP, keptP, privateExclP, replyExclP,
        emptyExclP, hp]
    · by_cases hc : a.Object.Content = []
      · simp only [collectGo, hp, Bool.not_true, if_false, if_pos hc, ih]
        simp [List.countP_cons, List.filter_cons, parsesP, keptP, privateExclP, replyExclP,
          emptyExclP, hp, hc]
        omega
      · rcases hpub : notePublic a.Object with _ | _
        · simp only [collectGo, hp, Bool.not_true, if_false, if_neg hc, hpub, Bool.not_false,
            if_true, ih]
          simp [List.countP_cons, List.filter_cons, parsesP, keptP, privateExclP, replyExclP,
            emptyExclP, hp, hc, hpub]
          omega
        · rcases hro : replyToOther a with _ | _
          · simp only [collectGo, hp, Bool.not_true, if_false, if_neg hc, hpub, Bool.not_true,
              hro, if_false, ih]
            simp [List.countP_cons, List.filter_cons, parsesP, keptP, privateExclP, replyExclP,
              emptyExclP, mkAWN, hp, hc, hpub, hro]
            omega
          · simp only [collectGo, hp, Bool.not_true, if_false, if_neg hc, hpub, Bool.not_true,
              hro, if_true, ih]
            simp [List.countP_cons, List.filter_cons, parsesP, keptP, privateExclP, replyExclP,
              emptyExclP, hp, hc, hpub, hro]
            omega

/-- C2 as amended: the filter applies emptiness, then visibility, then
reply scope, rejecting on the first failing rule; each exclusion
increments exactly the counter of that first failing rule, the output
contains exactly the records that pass all three rules, and every parsed
record is counted as processed. -/
theorem C2_filter_order (acts : List Activity) :
    (collectToots acts).1.TotalProcessed = acts.countP parsesP ∧
    (collectToots acts).1.EmptyContent = acts.countP emptyExclP ∧
    (collectToots acts).1.PrivateSkipped = acts.countP privateExclP ∧
    (collectToots acts).1.RepliesToOthers = acts.countP replyExclP ∧
    (collectToots acts).1.TootsOutput = acts.countP keptP ∧
    (collectToots acts).2 = (acts.filter keptP).map mkAWN := by
  unfold collectToots
  rw [collectGo_spec]
  simp

/-!
### C8 / C10: media extraction
-/

/-- Lookup distributes over association-list append. -/
theorem alookup_append {β : Type} (m1 m2 : List (Str × β)) (k : Str) :
    alookup (m1 ++ m2) k =
      (match alookup m1 k with
        | some v => some v
        | none => alookup m2 k) := by
  induction m1 with
  | nil => simp [alookup]
  | cons p r ih =>
    by_cases h : p.1 = k
    · simp [alookup, h]
    · simp [alookup, h, ih]

/-- Every pair a single extraction step adds maps an archive name to its
base filename. -/
theorem extractStep_pairs (d : Str) (st : ExtractState) (f : ZipEntry)
    (pair : Str × Str) (h : pair ∈ (extractStep d st f).extractedMedia) :
    pair ∈ st.extractedMedia ∨ pair = (f.Name, goBase f.Name) := by
  unfold extractStep at h
  split_ifs at h <;> simp_all

/-- Every pair the extraction loop adds maps an archive name to its base
filename. -/
theorem extractFold_pairs (d : Str) :
    ∀ (entries : List ZipEntry) (st : ExtractState) (pair : Str × Str),
      pair ∈ (entries.foldl (extractStep d) st).extractedMedia →
      pair ∈ st.extractedMedia ∨ ∃ f, f ∈ entries ∧ pair = (f.Name, goBase f.Name) := by
  intro entries
  induction entries with
  | nil => intro st pair h; exact Or.inl h
  | cons f rest ih =>
    intro st pair h
    rcases ih (extractStep d st f) pair h with h' | ⟨g, hg, hpair⟩
    · rcases extractStep_pairs d st f pair h' with h'' | h''
      · exact Or.inl h''
      · exact Or.inr ⟨f, List.mem_cons_self f rest, h''⟩
    · exact Or.inr ⟨g, List.mem_cons_of_mem f hg, hpair⟩

/-- A key present after one extraction step was already present or is the
entry's name. -/
theorem extractStep_keys (d : Str) (st : ExtractState) (f : ZipEntry) (k : Str)
    (h : (alookup (extractStep d st f).extractedMedia k).isSome = true) :
    (alookup st.extractedMedia k).isSome = true ∨ k = f.Name := by
  unfold extractStep at h
  split_ifs at h
  all_goals first
  | exact Or.inl h
  | · rw [alookup_append] at h
      rcases hm : alookup st.extractedMedia k with _ | v
      · rw [hm] at h
        simp only [alookup] at h
        by_cases hk : f.Name = k
        · exact Or.inr hk.symm
        · rw [if_neg hk] at h
          simp at h
      · exact Or.inl (by simp [hm])

/-- A key present after the extraction loop was already present or names
a processed entry. -/
theorem extractFold_keys (d : Str) :
    ∀ (entries : List ZipEntry) (st : ExtractState) (k : Str),
      (alookup (entries.foldl (extractStep d) st).extractedMedia k).isSome = true →
      (alookup st.extractedMedia k).isSome = true ∨ k ∈ entries.map ZipEntry.Name := by
  intro entries
  induction entries with
  | nil => intro st k h; exact Or.inl h
  | cons f rest ih =>
    intro st k h
    rcases ih (extractStep d st f) k h with h' | h'
    · rcases extractStep_keys d st f k h' with h'' | h''
      · exact Or.inl h''
      · exact Or.inr (by simp [h''])
    · exact Or.inr (by simp [h'])

/-- The map a step produces does not depend on the directory contents. -/
theorem extractStep_disk_indep (d : Str) (f : ZipEntry) (e dk1 dk2 : List (Str × Str)) :
    (extractStep d ⟨e, dk1⟩ f).extractedMedia = (extractStep d ⟨e, dk2⟩ f).extractedMedia := by
  unfold extractStep
  split_ifs <;> rfl

/-- The map the loop produces does not depend on the directory contents. -/
theorem extractFold_disk_indep (d : Str) :
    ∀ (entries : List ZipEntry) (e dk1 dk2 : List (Str × Str)),
      (entries.foldl (extractStep d) ⟨e, dk1⟩).extractedMedia =
        (entries.foldl (extractStep d) ⟨e, dk2⟩).extractedMedia := by
  intro entries
  induction entries with
  | nil => intro e dk1 dk2; rfl
  | cons f rest ih =>
    intro e dk1 dk2
    simp only [List.foldl_cons]
    have hstep := extractStep_disk_indep d f e dk1 dk2
    calc (rest.foldl (extractStep d) (extractStep d ⟨e, dk1⟩ f)).extractedMedia
        = (rest.foldl (extractStep d)
            (⟨(extractStep d ⟨e, dk1⟩ f).extractedMedia,
              (extractStep d ⟨e, dk1⟩ f).disk⟩ : ExtractState)).extractedMedia := rfl
      _ = (rest.foldl (extractStep d)
            (⟨(extractStep d ⟨e, dk2⟩ f).extractedMedia,
              (extractStep d ⟨e, dk2⟩ f).disk⟩ : ExtractState)).extractedMedia := by
            rw [hstep]; exact ih _ _ _
      _ = (rest.foldl (extractStep d) (extractStep d ⟨e, dk2⟩ f)).extractedMedia := rfl

/-- A step on an entry with a failing open, create, or copy leaves the
map unchanged. -/
theorem extractStep_failed (d : Str) (st : ExtractState) (f : ZipEntry)
    (h : f.openOk = false ∨ f.createOk = false ∨ f.copyOk = false) :
    (extractStep d st f).extractedMedia = st.extractedMedia := by
  unfold extractStep
  split_ifs <;> first | rfl | simp_all

/-- C8: an I/O failure (open, create, or copy) on a single media entry
only skips that entry: the extracted-media map is the same as if the
entry were absent, and `extractMedia` still reports no error. -/
theorem C8_per_entry_failure (mediaDir : Str) (l1 l2 : List ZipEntry) (bad : ZipEntry)
    (h : bad.openOk = false ∨ bad.createOk = false ∨ bad.copyOk = false) :
    (extractMedia mediaDir (l1 ++ bad :: l2)).1.extractedMedia =
      (extractMedia mediaDir (l1 ++ l2)).1.extractedMedia ∧
    (extractMedia mediaDir (l1 ++ bad :: l2)).2 = none := by
  refine ⟨?_, rfl⟩
  unfold extractMedia
  simp only [List.foldl_append, List.foldl_cons]
  set st1 := l1.foldl (extractStep mediaDir) ⟨[], []⟩ with hst1
  have hext : (extractStep mediaDir st1 bad).extractedMedia = st1.extractedMedia :=
    extractStep_failed mediaDir st1 bad h
  calc (l2.foldl (extractStep mediaDir) (extractStep mediaDir st1 bad)).extractedMedia
      = (l2.foldl (extractStep mediaDir)
          (⟨(extractStep mediaDir st1 bad).extractedMedia,
            (extractStep mediaDir st1 bad).disk⟩ : ExtractState)).extractedMedia := rfl
    _ = (l2.foldl (extractStep mediaDir)
          (⟨st1.extractedMedia, st1.disk⟩ : ExtractState)).extractedMedia := by
          rw [hext]; exact extractFold_disk_indep mediaDir l2 _ _ _
    _ = (l2.foldl (extractStep mediaDir) st1).extractedMedia := rfl

/-- Witness for C8: one failing entry between two good ones is skipped
and extraction continues without an error. -/
theorem C8_per_entry_failure_witness :
    (extractMedia "media".data
        ([⟨"media_attachments/a/x.png".data, "one".data, true, true, true⟩] ++
          ⟨"media_attachments/b/y.png".data, "two".data, false, true, true⟩ ::
          [⟨"media_attachments/c/z.png".data, "three".data, true, true, true⟩])).1.extractedMedia =
      (extractMedia "media".data
        ([⟨"media_attachments/a/x.png".data, "one".data, true, true, true⟩] ++
          [⟨"media_attachments/c/z.png".data, "three".data, true, true, true⟩])).1.extractedMedia ∧
    (extractMedia "media".data
        ([⟨"media_attachments/a/x.png".data, "one".data, true, true, true⟩] ++
          ⟨"media_attachments/b/y.png".data, "two".data, false, true, true⟩ ::
          [⟨"media_attachments/c/z.png".data, "three".data, true, true, true⟩])).2 = none :=
  C8_per_entry_failure "media".data
    [⟨"media_attachments/a/x.png".data, "one".data, true, true, true⟩]
    [⟨"media_attachments/c/z.png".data, "three".data, true, true, true⟩]
    ⟨"media_attachments/b/y.png".data, "two".data, false, true, true⟩
    (Or.inl rfl)

/-- C10: extraction flattens archive paths to base filenames: every
mapping entry sends an archive path to its base filename, two paths with
the same base filename map to the same output filename, and the disk
content at a base filename is that of the last successfully processed
entry with that base (the later copy overwrites the earlier one). -/
theorem C10_flatten_to_base :
    (∀ (mediaDir : Str) (entries : List ZipEntry) (k v : Str),
      (k, v) ∈ (extractMedia mediaDir entries).1.extractedMedia → v = goBase k) ∧
    (∀ (mediaDir : Str) (entries : List ZipEntry) (k1 v1 k2 v2 : Str),
      (k1, v1) ∈ (extractMedia mediaDir entries).1.extractedMedia →
      (k2, v2) ∈ (extractMedia mediaDir entries).1.extractedMedia →
      goBase k1 = goBase k2 → v1 = v2) ∧
    (∀ (mediaDir : Str) (l : List ZipEntry) (e : ZipEntry),
      goStartsWith e.Name "media_attachments/".data = true →
      e.openOk = true → e.createOk = true → e.copyOk = true →
      e.Name ∉ l.map ZipEntry.Name →
      alookup (extractMedia mediaDir (l ++ [e])).1.extractedMedia e.Name =
        some (goBase e.Name) ∧
      alookup (extractMedia mediaDir (l ++ [e])).1.disk
        (mediaDir ++ "/".data ++ goBase e.Name) = some e.Content) := by
  have base : ∀ (mediaDir : Str) (entries : List ZipEntry) (k v : Str),
      (k, v) ∈ (extractMedia mediaDir entries).1.extractedMedia → v = goBase k := by
    intro mediaDir entries k v h
    rcases extractFold_pairs mediaDir entries ⟨[], []⟩ (k, v) h with h' | ⟨f, _, hpair⟩
    · simp at h'
    · rw [Prod.mk.injEq] at hpair
      rw [hpair.2, hpair.1]
  refine ⟨base, ?_, ?_⟩
  · intro mediaDir entries k1 v1 k2 v2 h1 h2 hbase
    rw [base mediaDir entries k1 v1 h1, base mediaDir entries k2 v2 h2, hbase]
  · intro mediaDir l e hpre hopen hcreate hcopy hfresh
    unfold extractMedia
    simp only [List.foldl_append, List.foldl_cons, List.foldl_nil]
    set st1 := l.foldl (extractStep mediaDir) ⟨[], []⟩ with hst1
    have hnotin : alookup st1.extractedMedia e.Name = none := by
      rcases hlk : alookup st1.extractedMedia e.Name with _ | v
      · rfl
      · exfalso
        have hsome : (alookup st1.extractedMedia e.Name).isSome = true := by simp [hlk]
        rcases extractFold_keys mediaDir l ⟨[], []⟩ e.Name hsome with h' | h'
        · simp [alookup] at h'
        · exact hfresh h'
    have hstep : extractStep mediaDir st1 e =
        ⟨st1.extractedMedia ++ [(e.Name, goBase e.Name)],
          diskWrite st1.disk (mediaDir ++ "/".data ++ goBase e.Name) e.Content⟩ := by
      unfold extractStep
      rw [if_neg (by simp [hpre]), if_neg (by simp [hnotin]), if_neg (by simp [hopen]),
        if_neg (by simp [hcreate]), if_neg (by simp [hcopy])]
    rw [hstep]
    constructor
    · show alookup (st1.extractedMedia ++ [(e.Name, goBase e.Name)]) e.Name = _
      rw [alookup_append, hnotin]
      simp [alookup]
    · show alookup (diskWrite st1.disk _ _) _ = _
      simp [diskWrite, alookup]

/-- Witness for C10: two archive paths with the same base filename; both
map to that base filename and the later entry's bytes are the ones on
disk. -/
theorem C10_flatten_to_base_witness :
    alookup (extractMedia "media".data
        ([⟨"media_attachments/a/f.png".data, "one".data, true, true, true⟩] ++
          [⟨"media_attachments/b/f.png".data, "two".data, true, true, true⟩])).1.extractedMedia
        "media_attachments/b/f.png".data =
      some (goBase "media_attachments/b/f.png".data) ∧
    alookup (extractMedia "media".data
        ([⟨"media_attachments/a/f.png".data, "one".data, true, true, true⟩] ++
          [⟨"media_attachments/b/f.png".data, "two".data, true, true, true⟩])).1.disk
        ("media".data ++ "/".data ++ goBase "media_attachments/b/f.png".data) =
      some "two".data :=
  C10_flatten_to_base.2.2 "media".data
    [⟨"media_attachments/a/f.png".data, "one".data, true, true, true⟩]
    ⟨"media_attachments/b/f.png".data, "two".data, true, true, true⟩
    (by decide) rfl rfl rfl (by decide)

/-!
### C4: reply ordering within a thread
-/

/-- `findReplies` always returns a timestamp-sorted list (its final
`sort.Slice`). -/
theorem findReplies_sorted (allToots : List ActivityWithNote) (fuel : Nat) (pid : Str) :
    List.Sorted pubLE (findReplies allToots fuel pid) := by
  cases fuel with
  | zero => simp [findReplies]
  | succ n =>
    rw [findReplies]
    exact List.sorted_insertionSort pubLE _

/-- A thread in an updated date map is an old thread or the added one. -/
theorem mem_assocAppendThread :
    ∀ (m : List (Str × List TootThread)) (k : Str) (v t : TootThread),
      t ∈ (assocAppendThread m k v).flatMap (fun p => p.2) →
      t ∈ m.flatMap (fun p => p.2) ∨ t = v := by
  intro m
  induction m with
  | nil =>
    intro k v t h
    simp [assocAppendThread] at h
    exact Or.inr h
  | cons p r ih =>
    intro k v t h
    by_cases hk : p.1 = k
    · simp only [assocAppendThread, if_pos hk, List.flatMap_cons, List.mem_append] at h ⊢
      rcases h with (h | h) | h
      · exact Or.inl (Or.inl h)
      · simp at h
        exact Or.inr h
      · exact Or.inl (Or.inr h)
    · simp only [assocAppendThread, if_neg hk, List.flatMap_cons, List.mem_append] at h ⊢
      rcases h with h | h
      · exact Or.inl (Or.inl h)
      · rcases ih k v t h with h' | h'
        · exact Or.inl (Or.inr h')
        · exact Or.inr h'

/-- Every thread the `buildThreads` loop adds pairs a root with a
`findReplies` result. -/
theorem buildThreadsGo_mem (allToots : List ActivityWithNote) (fuel : Nat) :
    ∀ (rest : List ActivityWithNote) (m : List (Str × List TootThread)) (t : TootThread),
      t ∈ (buildThreadsGo allToots fuel rest m).flatMap (fun p => p.2) →
      t ∈ m.flatMap (fun p => p.2) ∨
        ∃ toot, t = ⟨toot, findReplies allToots fuel toot.Object.ID⟩ := by
  intro rest
  induction rest with
  | nil => intro m t h; exact Or.inl h
  | cons toot rest ih =>
    intro m t h
    by_cases hskip : isSelfReplySkip toot = true
    · rw [buildThreadsGo, if_pos hskip] at h
      exact ih m t h
    · rw [buildThreadsGo, if_neg hskip] at h
      by_cases hdate : validRFC3339 toot.Published = true
      · rw [if_pos hdate] at h
        rcases ih _ t h with h' | h'
        · rcases mem_assocAppendThread m _ _ t h' with h'' | h''
          · exact Or.inl h''
          · exact Or.inr ⟨toot, h''⟩
        · exact Or.inr h'
      · rw [if_neg hdate] at h
        exact ih m t h

/-- C4: in every assembled thread, the replies are sorted by publish
timestamp (each reply's published value is at least its predecessor's). -/
theorem C4_replies_sorted (fuel : Nat) (allToots : List ActivityWithNote)
    (thread : TootThread)
    (h : thread ∈ (buildThreads fuel allToots).flatMap (fun p => p.2)) :
    List.Sorted pubLE thread.Replies := by
  rcases buildThreadsGo_mem allToots fuel allToots [] thread h with h' | ⟨toot, ht⟩
  · simp at h'
  · rw [ht]
    exact findReplies_sorted allToots fuel toot.Object.ID

/-- Root and replies for the C4 witness (replies published out of input
order). -/
def c4Root : ActivityWithNote :=
  { Published := "2024-02-02T10:00:00Z".data
    Actor := "https://hachyderm.io/users/mweagle".data
    Object :=
      { ID := "https://hachyderm.io/users/mweagle/statuses/10".data
        URL := "https://hachyderm.io/@mweagle/10".data
        Published := "2024-02-02T10:00:00Z".data
        Content := "<p>root</p>".data
        ContentDoc := plainDoc "root".data
        Summary := none
        InReplyTo := none
        Sensitive := false
        Attachment := []
        Tag := []
        To := [publicURI]
        Cc := [] } }

/-- A later self-reply. -/
def c4ReplyLate : ActivityWithNote :=
  { Published := "2024-02-02T12:00:00Z".data
    Actor := "https://hachyderm.io/users/mweagle".data
    Object :=
      { ID := "https://hachyderm.io/users/mweagle/statuses/12".data
        URL := "https://hachyderm.io/@mweagle/12".data
        Published := "2024-02-02T12:00:00Z".data
        Content := "<p>late</p>".data
        ContentDoc := plainDoc "late".data
        Summary := none
        InReplyTo := some "https://hachyderm.io/users/mweagle/statuses/10".data
        Sensitive := false
        Attachment := []
        Tag := []
        To := [publicURI]
        Cc := [] } }

/-- An earlier self-reply, appearing after the later one in the input. -/
def c4ReplyEarly : ActivityWithNote :=
  { Published := "2024-02-02T11:00:00Z".data
    Actor := "https://hachyderm.io/users/mweagle".data
    Object :=
      { ID := "https://hachyderm.io/users/mweagle/statuses/11".data
        URL := "https://hachyderm.io/@mweagle/11".data
        Published := "2024-02-02T11:00:00Z".data
        Content := "<p>early</p>".data
        ContentDoc := plainDoc "early".data
        Summary := none
        InReplyTo := some "https://hachyderm.io/users/mweagle/statuses/10".data
        Sensitive := false
        Attachment := []
        Tag := []
        To := [publicURI]
        Cc := [] } }

/-- The record set for the C4 witness. -/
def c4Toots : List ActivityWithNote := [c4Root, c4ReplyLate, c4ReplyEarly]

/-- Witness for C4: the thread assembled from the concrete record set is
in the output and its replies are sorted even though the input lists the
later reply first. -/
theorem C4_replies_sorted_witness :
    (⟨c4Root, findReplies c4Toots 3 c4Root.Object.ID⟩ : TootThread) ∈
      (buildThreads 3 c4Toots).flatMap (fun p => p.2) ∧
    List.Sorted pubLE
      (⟨c4Root, findReplies c4Toots 3 c4Root.Object.ID⟩ : TootThread).Replies :=
  ⟨by decide,
   C4_replies_sorted 3 c4Toots ⟨c4Root, findReplies c4Toots 3 c4Root.Object.ID⟩ (by decide)⟩

/-!
### C3: the round-trip scenario

Two records: a public root whose content is
`<p>Hello <a href="https://x" class="hashtag">#tag</a> world</p>` and a
public self-reply `<p>follow-up</p>`.  The parse trees below are the
HTML5 parses of those two strings (`html` wrapping `head` and `body`).
-/

/-- Parse tree of the root content. -/
def c3RootDoc : Node :=
  .doc (.cons (.elem "html".data [] (.cons (.elem "head".data [] .nil)
    (.cons (.elem "body".data [] (.cons
      (.elem "p".data [] (.cons (.text "Hello ".data)
        (.cons (.elem "a".data
            [("href".data, "https://x".data), ("class".data, "hashtag".data)]
            (.cons (.text "#tag".data) .nil))
          (.cons (.text " world".data) .nil)))) .nil)) .nil))) .nil)

/-- Parse tree of the reply content. -/
def c3ReplyDoc : Node :=
  .doc (.cons (.elem "html".data [] (.cons (.elem "head".data [] .nil)
    (.cons (.elem "body".data [] (.cons
      (.elem "p".data [] (.cons (.text "follow-up".data) .nil)) .nil)) .nil))) .nil)

/-- The scenario's root record. -/
def c3Root : Activity :=
  { Published := "2024-02-02T17:40:31Z".data
    Actor := "https://hachyderm.io/users/mweagle".data
    ObjectParses := true
    Object :=
      { ID := "https://hachyderm.io/users/mweagle/statuses/111".data
        URL := "https://hachyderm.io/@mweagle/111".data
        Published := "2024-02-02T17:40:31Z".data
        Content := "<p>Hello <a href=\"https://x\" class=\"hashtag\">#tag</a> world</p>".data
        ContentDoc := c3RootDoc
        Summary := none
        InReplyTo := none
        Sensitive := false
        Attachment := []
        Tag := []
        To := [publicURI]
        Cc := [] } }

/-- The scenario's self-reply record. -/
def c3Reply : Activity :=
  { Published := "2024-02-02T18:00:00Z".data
    Actor := "https://hachyderm.io/users/mweagle".data
    ObjectParses := true
    Object :=
      { ID := "https://hachyderm.io/users/mweagle/statuses/222".data
        URL := "https://hachyderm.io/@mweagle/222".data
        Published := "2024-02-02T18:00:00Z".data
        Content := "<p>follow-up</p>".data
        ContentDoc := c3ReplyDoc
        Summary := none
        InReplyTo := some "https://hachyderm.io/users/mweagle/statuses/111".data
        Sensitive := false
        Attachment := []
        Tag := []
        To := [publicURI]
        Cc := [] } }

/-- The two-record scenario archive. -/
def c3Archive : List Activity := [c3Root, c3Reply]

/-- The documents the pipeline writes for the scenario (no media,
generated-at stamp fixed). -/
def c3Docs : List (Str × Str) :=
  writeMarkdownFiles (buildThreads 2 (collectToots c3Archive).2) "out".data []
    "2026-01-01T00:00:00Z".data

set_option maxRecDepth 100000 in
/-- C3 counterexample: the root content is transformed to
`"Hello  world"` with *two* spaces (the hashtag link's surrounding text
nodes both keep their space), not `"Hello world"`, and the scenario's
document gives the reply no heading of its own (no heading line ends in
`follow-up`). -/
theorem C3_roundtrip_counterexample :
    htmlToTextDoc c3RootDoc ≠ "Hello world".data ∧
    htmlToTextDoc c3RootDoc = "Hello  world".data ∧
    goContains ((c3Docs.map (fun p => p.2)).flatten) "# follow-up".data = false := by
  decide

set_option maxRecDepth 100000 in
/-- C3 as amended: the scenario yields exactly one document: frontmatter,
the root's body `"Hello  world"` under a level-2 heading, the reply body
`"follow-up"` following with no heading of its own, the per-toot source
backlinks, and statistics of 2 processed, 2 rendered, 0 filtered. -/
theorem C3_roundtrip :
    c3Docs =
      [("out/2024/2024-02-02.md".data,
        ("---\ntitle: \"Mastodon - 2024-02-02\"\ndescription: \"\"\nimage: \"/images/mastodon.png\"\ndate: 2024-02-02T00:00:00Z\nlastmod: 2024-02-02T00:00:00Z\ntags: [\"Social Media\"]\ncategories: [\"mastodon\"]\n# generated: 2026-01-01T00:00:00Z\n---\n\n# Toots from 2024-02-02\n\n## Hello  world\n\nHello  world\n\n##### [Mastodon Source ðŸ˜](https://hachyderm.io/@mweagle/111)\n\nfollow-up\n\n##### [Mastodon Source ðŸ˜](https://hachyderm.io/@mweagle/222)\n\n---\n\n").data)] ∧
    (collectToots c3Archive).1 =
      { TotalProcessed := 2, TootsOutput := 2, PrivateSkipped := 0,
        RepliesToOthers := 0, EmptyContent := 0 } := by
  constructor
  · decide
  · decide

/-!
### C7: the content transformer on plain text

Helper lemmas about `splitNl`, `goTrimSpace`, `wrapURL`, `cleanLines`
and `joinWith`, building up to idempotence of the cleanup.
-/

/-- Trimming never lengthens. -/
theorem goTrimLeft_length_le (s : Str) : (goTrimLeft s).length ≤ s.length :=
  (List.dropWhile_suffix isGoSpace).length_le

/-- Trimming never lengthens. -/
theorem goTrimRight_length_le (s : Str) : (goTrimRight s).length ≤ s.length := by
  unfold goTrimRight
  rw [List.length_reverse]
  calc (s.reverse.dropWhile isGoSpace).length ≤ s.reverse.length :=
        (List.dropWhile_suffix isGoSpace).length_le
    _ = s.length := List.length_reverse s

/-- A string equal to its trim is equal to each one-sided trim. -/
theorem trim_eq_parts (l : Str) (h : goTrimSpace l = l) :
    goTrimLeft l = l ∧ goTrimRight l = l := by
  have hsuffix : goTrimLeft l <:+ l := List.dropWhile_suffix isGoSpace
  have hlen : (goTrimLeft l).length = l.length := by
    have h1 : l.length = (goTrimRight (goTrimLeft l)).length := by
      conv_lhs => rw [← h]
      rfl
    have h2 := goTrimRight_length_le (goTrimLeft l)
    have h3 := goTrimLeft_length_le l
    omega
  have hleft : goTrimLeft l = l := hsuffix.eq_of_length hlen
  refine ⟨hleft, ?_⟩
  have : goTrimSpace l = goTrimRight l := by
    unfold goTrimSpace
    rw [hleft]
  rw [← this, h]

/-- The last character of a trim-fixed nonempty string is not whitespace. -/
theorem trimmed_last_nonspace (l : Str) (c : Char) (r : Str)
    (h : goTrimSpace l = l) (hl : l.reverse = c :: r) : isGoSpace c = false := by
  have hright := (trim_eq_parts l h).2
  rcases hc : isGoSpace c with _ | _
  · rfl
  · exfalso
    unfold goTrimRight at hright
    have hrev : l.reverse.dropWhile isGoSpace = l.reverse := by
      have := congrArg List.reverse hright
      rwa [List.reverse_reverse] at this
    rw [hl, List.dropWhile_cons, hc] at hrev
    simp only [if_true] at hrev
    have := (List.dropWhile_suffix (l := r) isGoSpace).length_le
    have : (r.dropWhile isGoSpace).length = r.length + 1 := by rw [hrev]; rfl
    omega

end MTH
